import Mathlib

-- Verification of the Zuse relay-circuit CAD/simulator.
-- The host glue (ZsCad.tsx) is embedded directly from the TypeScript source;
-- the Rust core (document model, serialization, simulation engine) is not in
-- the repository snapshot, so those parts are modelled from the specification.

namespace Zuse

-- ## Schematic Document data model
-- Modelled from the spec: Component = id, kind (wire | relay-coil | switch |
-- power-source) with kind-specific parameters, grid position, orientation
-- (4 rotations x horizontal flip).

inductive Kind where
  | wire : Kind
  | relayCoil : Nat → Kind
  | switch : Bool → Kind
  | powerSource : Kind
deriving DecidableEq

structure Component where
  cid : String
  kind : Kind
  x : Int
  y : Int
  rot : Fin 4
  flip : Bool
deriving DecidableEq

abbrev Document := List Component

-- ## Serialization (Modelled from the spec: the Rust core's save/load for the
-- `.zse` textual format is not in the snapshot; the grammar is an
-- implementation choice that must be stable and round-trip exact.)

def digCh (d : Nat) : Char := Char.ofNat (48 + d)

def isDig (c : Char) : Bool := 48 ≤ c.toNat && c.toNat ≤ 57

def digVal (c : Char) : Nat := c.toNat - 48

def natChars (n : Nat) : List Char :=
  if _h : n < 10 then [digCh n]
  else natChars (n / 10) ++ [digCh (n % 10)]
termination_by n
decreasing_by exact Nat.div_lt_self (by omega) (by omega)

def spanDig : List Char → List Char × List Char
  | [] => ([], [])
  | c :: cs => if isDig c then (c :: (spanDig cs).1, (spanDig cs).2) else ([], c :: cs)

def digsVal (ds : List Char) : Nat := ds.foldl (fun a c => a * 10 + digVal c) 0

def headNd : List Char → Bool
  | [] => true
  | c :: _ => !isDig c

def parseNat (cs : List Char) : Option (Nat × List Char) :=
  match spanDig cs with
  | ([], _) => none
  | (ds, rest) => some (digsVal ds, rest)

def expectCh (c : Char) : List Char → Option (List Char)
  | [] => none
  | x :: xs => if x = c then some xs else none

def intChars (v : Int) : List Char :=
  if v < 0 then '-' :: natChars v.natAbs else natChars v.natAbs

def parseInt (cs : List Char) : Option (Int × List Char) :=
  match cs with
  | [] => none
  | c :: rest =>
    if c = '-' then (parseNat rest).map fun p => (-(p.1 : Int), p.2)
    else (parseNat (c :: rest)).map fun p => ((p.1 : Int), p.2)

def strChars (s : String) : List Char := natChars s.length ++ ':' :: s.data

def parseStr (cs : List Char) : Option (String × List Char) :=
  (parseNat cs).bind fun p =>
    (expectCh ':' p.2).bind fun rest =>
      if p.1 ≤ rest.length then some (String.mk (rest.take p.1), rest.drop p.1) else none

def boolCh (b : Bool) : Char := if b then '1' else '0'

def parseBool (cs : List Char) : Option (Bool × List Char) :=
  match cs with
  | [] => none
  | c :: rest =>
    if c = '1' then some (true, rest)
    else if c = '0' then some (false, rest)
    else none

def kindChars : Kind → List Char
  | .wire => ['w']
  | .relayCoil n => 'c' :: (natChars n ++ [' '])
  | .switch b => ['s', boolCh b]
  | .powerSource => ['p']

def parseKind (cs : List Char) : Option (Kind × List Char) :=
  match cs with
  | [] => none
  | c :: rest =>
    if c = 'w' then some (.wire, rest)
    else if c = 'c' then
      (parseNat rest).bind fun p =>
        (expectCh ' ' p.2).map fun r => (Kind.relayCoil p.1, r)
    else if c = 's' then (parseBool rest).map fun p => (Kind.switch p.1, p.2)
    else if c = 'p' then some (.powerSource, rest)
    else none

def rotChars (r : Fin 4) : List Char := natChars r.val ++ [' ']

def parseRot (cs : List Char) : Option (Fin 4 × List Char) :=
  (parseNat cs).bind fun p =>
    (expectCh ' ' p.2).bind fun rest =>
      if h : p.1 < 4 then some (⟨p.1, h⟩, rest) else none

def compChars (c : Component) : List Char :=
  strChars c.cid ++
    (kindChars c.kind ++
      (intChars c.x ++
        (' ' :: (intChars c.y ++
          (' ' :: (rotChars c.rot ++ (boolCh c.flip :: ['\n'])))))))

def parseComp (cs : List Char) : Option (Component × List Char) :=
  (parseStr cs).bind fun pid =>
  (parseKind pid.2).bind fun pk =>
  (parseInt pk.2).bind fun px =>
  (expectCh ' ' px.2).bind fun r1 =>
  (parseInt r1).bind fun py =>
  (expectCh ' ' py.2).bind fun r2 =>
  (parseRot r2).bind fun pr =>
  (parseBool pr.2).bind fun pf =>
  (expectCh '\n' pf.2).map fun rest =>
  ({ cid := pid.1, kind := pk.1, x := px.1, y := py.1, rot := pr.1, flip := pf.1 }, rest)

def docChars : Document → List Char
  | [] => []
  | c :: cs => compChars c ++ docChars cs

def parseDocFuel : Nat → List Char → Option Document
  | _, [] => some []
  | 0, _ :: _ => none
  | f + 1, c :: cs =>
    (parseComp (c :: cs)).bind fun p => (parseDocFuel f p.2).map fun d => p.1 :: d

def save (d : Document) : String := String.mk (docChars d)

def load (s : String) : Option Document := parseDocFuel s.data.length s.data

-- ## Simulation Engine (Modelled from the spec: the Rust core's netlist
-- builder and per-step propagation are not in the snapshot.  Pins live at
-- grid coordinates; pins coincide iff their coordinates are equal, wires
-- statically bridge their two endpoints, a closed switch dynamically bridges
-- its terminals, a relay armature latched closed bridges its contact pins,
-- and a net is energized iff it reaches a power-source output pin.)

abbrev Pos := Int × Int

def rotVec (r : Fin 4) (v : Pos) : Pos :=
  match r.val with
  | 0 => v
  | 1 => (-v.2, v.1)
  | 2 => (-v.1, -v.2)
  | _ => (v.2, -v.1)

def flipVec (f : Bool) (v : Pos) : Pos := if f then (-v.1, v.2) else v

def place (c : Component) (v : Pos) : Pos :=
  ((c.x + (rotVec c.rot (flipVec c.flip v)).1), (c.y + (rotVec c.rot (flipVec c.flip v)).2))

def Component.isRelayC (c : Component) : Bool :=
  match c.kind with
  | .relayCoil _ => true
  | _ => false

def coilPins (c : Component) : List Pos := [place c (0, 0), place c (0, 1)]

def armEnds (c : Component) : Pos × Pos := (place c (1, 0), place c (1, 1))

def wireEnds (c : Component) : Pos × Pos := (place c (0, 0), place c (1, 0))

def switchEnds (c : Component) : Pos × Pos := (place c (0, 0), place c (1, 0))

def sourcePins (d : Document) : List Pos :=
  d.filterMap fun c =>
    match c.kind with
    | .powerSource => some (place c (0, 0))
    | _ => none

structure SimState where
  armature : List (String × Bool)
  switches : List (String × Bool)
deriving DecidableEq

def lookupB (l : List (String × Bool)) (k : String) : Bool := (l.lookup k).getD false

def stepEdges (d : Document) (st : SimState) : List (Pos × Pos) :=
  d.foldr
    (fun c acc =>
      match c.kind with
      | .wire => wireEnds c :: acc
      | .switch _ => if lookupB st.switches c.cid then switchEnds c :: acc else acc
      | .relayCoil _ => if lookupB st.armature c.cid then armEnds c :: acc else acc
      | .powerSource => acc)
    []

def expandOnce (edges : List (Pos × Pos)) (r : List Pos) : List Pos :=
  r ++ edges.filterMap fun e =>
    if e.1 ∈ r ∧ e.2 ∉ r then some e.2
    else if e.2 ∈ r ∧ e.1 ∉ r then some e.1
    else none

def reachIter (edges : List (Pos × Pos)) : Nat → List Pos → List Pos
  | 0, r => r
  | k + 1, r => reachIter edges k (expandOnce edges r)

def energizedSet (d : Document) (st : SimState) : List Pos :=
  reachIter (stepEdges d st) (2 * (stepEdges d st).length + 1) (sourcePins d)

def energizedPos (d : Document) (st : SimState) (p : Pos) : Bool :=
  decide (p ∈ energizedSet d st)

def coilNetEnergized (d : Document) (st : SimState) (c : Component) : Bool :=
  (coilPins c).any (energizedPos d st)

def stepArm (d : Document) (st : SimState) : List (String × Bool) :=
  d.filterMap fun c =>
    if c.isRelayC then some (c.cid, coilNetEnergized d st c) else none

def applyIoEvt (st : SimState) (evt : List String) : SimState :=
  { st with switches := st.switches.map fun p => if p.1 ∈ evt then (p.1, !p.2) else p }

structure StepOut where
  energized : List Pos
  state : SimState
deriving DecidableEq

def stepSim (d : Document) (st : SimState) (evt : List String) : StepOut :=
  let st1 := applyIoEvt st evt
  { energized := energizedSet d st1,
    state := { armature := stepArm d st1, switches := st1.switches } }

def initState (d : Document) : SimState :=
  { armature := d.filterMap fun c => if c.isRelayC then some (c.cid, false) else none,
    switches := d.filterMap fun c =>
      match c.kind with
      | .switch b => some (c.cid, b)
      | _ => none }

def simTraceFrom (d : Document) (st : SimState) : List (List String) → List StepOut
  | [] => []
  | evt :: rest => stepSim d st evt :: simTraceFrom d (stepSim d st evt).state rest

def simTrace (d : Document) (evts : List (List String)) : List StepOut :=
  simTraceFrom d (initState d) evts

def stateAt (d : Document) (evts : List (List String)) : Nat → SimState
  | 0 => initState d
  | k + 1 => (stepSim d (stateAt d evts k) (evts.getD k [])).state

def armUsedAt (d : Document) (evts : List (List String)) (k : Nat) (r : String) : Bool :=
  lookupB (stateAt d evts k).armature r

def coilEnergizedAt (d : Document) (evts : List (List String)) (k : Nat) (r : String) : Bool :=
  ((d.find? fun c => c.isRelayC && c.cid == r).map fun c =>
    coilNetEnergized d (applyIoEvt (stateAt d evts k) (evts.getD k [])) c).getD false

-- ## Host glue (embedded from src/src/components/ZsCad.tsx and the two
-- revisions of src/js/components/ZsCad.tsx).  The JS float event deltas and
-- coordinates are modelled as rationals; the bodies of the wasm-side queue
-- methods pushClick / pushDoubleClick / pushKeydown and the per-frame drain
-- are modelled from the spec (queues appended by the host, drained once per
-- frame by the core).

structure IoSnap where
  wheelX : Rat
  wheelY : Rat
  pinch : Rat
  mouseX : Rat
  mouseY : Rat
  clicks : List Nat
  doubleClicks : List Nat
  keydowns : List String
  screenW : Rat
  screenH : Rat
  pixelRatio : Rat
deriving DecidableEq

def IoSnap.start : IoSnap :=
  { wheelX := 0, wheelY := 0, pinch := 0, mouseX := 0, mouseY := 0,
    clicks := [], doubleClicks := [], keydowns := [],
    screenW := 0, screenH := 0, pixelRatio := 1 }

structure WheelEvt where
  ctrlKey : Bool
  deltaX : Rat
  deltaY : Rat
deriving DecidableEq

structure MouseEvt where
  clientX : Rat
  clientY : Rat
  button : Nat
deriving DecidableEq

structure KeyEvt where
  key : String
deriving DecidableEq

structure BoundingRect where
  left : Rat
  top : Rat
deriving DecidableEq

def onWheel (s : Option IoSnap) (e : WheelEvt) : Option IoSnap :=
  match s with
  | none => none
  | some s =>
    if e.ctrlKey then some { s with pinch := s.pinch + e.deltaY }
    else some { s with wheelX := s.wheelX + e.deltaX, wheelY := s.wheelY + e.deltaY }

def onMouseMove (s : Option IoSnap) (rect : BoundingRect) (e : MouseEvt) : Option IoSnap :=
  match s with
  | none => none
  | some s => some { s with mouseX := e.clientX - rect.left, mouseY := e.clientY - rect.top }

def onMouseDown (s : Option IoSnap) (_e : MouseEvt) : Option IoSnap :=
  match s with
  | none => none
  | some s => some s

def onMouseUp (s : Option IoSnap) (_e : MouseEvt) : Option IoSnap :=
  match s with
  | none => none
  | some s => some s

def onClick (s : Option IoSnap) (e : MouseEvt) : Option IoSnap :=
  match s with
  | none => none
  | some s => some { s with clicks := s.clicks ++ [e.button] }

def onDoubleClick (s : Option IoSnap) (e : MouseEvt) : Option IoSnap :=
  match s with
  | none => none
  | some s => some { s with doubleClicks := s.doubleClicks ++ [e.button] }

def onKeyDown (s : Option IoSnap) (e : KeyEvt) : Option IoSnap :=
  match s with
  | none => none
  | some s => some { s with keydowns := s.keydowns ++ [e.key] }

-- Earlier revision of src/js/components/ZsCad.tsx: the snapshot type ZsSchIo
-- has a single scalar keydown field, assigned (not queued) by its onKeyDown.

structure ZsSchIo where
  wheelX : Rat
  wheelY : Rat
  pinch : Rat
  mouseX : Rat
  mouseY : Rat
  keydown : Option String
deriving DecidableEq

def ZsSchIo.start : ZsSchIo :=
  { wheelX := 0, wheelY := 0, pinch := 0, mouseX := 0, mouseY := 0, keydown := none }

def legacyOnKeyDown (s : Option ZsSchIo) (e : KeyEvt) : Option ZsSchIo :=
  match s with
  | none => none
  | some s => some { s with keydown := some e.key }

-- Modelled from the spec: the core's per-frame drain clears the queues and
-- resets the continuous wheel / pinch deltas to zero.

def drainSnap (s : IoSnap) : IoSnap :=
  { s with wheelX := 0, wheelY := 0, pinch := 0,
           clicks := [], doubleClicks := [], keydowns := [] }

inductive HostEvt where
  | wheel (e : WheelEvt)
  | mouseMove (rect : BoundingRect) (e : MouseEvt)
  | mouseDown (e : MouseEvt)
  | mouseUp (e : MouseEvt)
  | click (e : MouseEvt)
  | doubleClick (e : MouseEvt)
  | keyDown (e : KeyEvt)
deriving DecidableEq

def handleEvt (s : Option IoSnap) : HostEvt → Option IoSnap
  | .wheel e => onWheel s e
  | .mouseMove r e => onMouseMove s r e
  | .mouseDown e => onMouseDown s e
  | .mouseUp e => onMouseUp s e
  | .click e => onClick s e
  | .doubleClick e => onDoubleClick s e
  | .keyDown e => onKeyDown s e

def runHost (s : Option IoSnap) (evts : List HostEvt) : Option IoSnap :=
  evts.foldl handleEvt s

-- `io = new Io()` inside the init promise unconditionally replaces the
-- variable with a fresh snapshot.

def assignFreshSnap (_s : Option IoSnap) : Option IoSnap := some IoSnap.start

def bootRun (early post : List HostEvt) : Option IoSnap :=
  runHost (assignFreshSnap (runHost none early)) post

-- Per-frame loop body (the `loop` closure): on an unmounted tick it frees the
-- core and stops; otherwise it sets the screen size, runs new_frame, draws,
-- and requests the next animation frame, in that order.

inductive FrameCall where
  | freeCad
  | setScreenSize
  | newFrame
  | drawCall
  | requestNext
deriving DecidableEq

def loopTick (isUnmounted : Bool) : List FrameCall :=
  if isUnmounted then [.freeCad]
  else [.setScreenSize, .newFrame, .drawCall, .requestNext]

def noDrawBeforeNewFrame : List FrameCall → Bool
  | [] => true
  | .drawCall :: _ => false
  | .newFrame :: _ => true
  | _ :: rest => noDrawBeforeNewFrame rest

-- Canvas event listeners added on mount and removed by the effect cleanup.

inductive ListenerKind where
  | wheelL
  | mousemoveL
  | mousedownL
  | mouseupL
  | clickL
  | dblclickL
  | keydownL
deriving DecidableEq

def mountListeners : List ListenerKind :=
  [.wheelL, .mousemoveL, .mousedownL, .mouseupL, .clickL, .dblclickL, .keydownL]

def unmountRemovals : List ListenerKind :=
  [.wheelL, .mousemoveL, .mousedownL, .mouseupL, .clickL, .keydownL]

def listenersAfterUnmount : List ListenerKind :=
  mountListeners.filter fun k => decide (k ∉ unmountRemovals)

-- Host control surface (the useImperativeHandle handler): each operation
-- checks the Cad state for null, throws "Cad is not initialized" without
-- touching the core, and otherwise forwards to exactly one core call.

inductive Cad where
  | mk
deriving DecidableEq

inductive CtlOp where
  | saveOp
  | loadOp (zse : String)
  | startOp
  | stopOp
deriving DecidableEq

inductive CoreCall where
  | saveSchematicCall
  | loadSchematicCall (zse : String)
  | startSimulationCall
  | stopSimulationCall
deriving DecidableEq

def coreCallOf : CtlOp → CoreCall
  | .saveOp => .saveSchematicCall
  | .loadOp z => .loadSchematicCall z
  | .startOp => .startSimulationCall
  | .stopOp => .stopSimulationCall

def handleCtl (zsSch : Option Cad) (op : CtlOp) : List CoreCall × Except String Unit :=
  match zsSch with
  | none => ([], Except.error "Cad is not initialized")
  | some _ => ([coreCallOf op], Except.ok ())

-- Delta sums used to state wheel accumulation across a burst of events.

def wheelXSum (evts : List WheelEvt) : Rat :=
  (evts.map fun e => if e.ctrlKey then 0 else e.deltaX).sum

def wheelYSum (evts : List WheelEvt) : Rat :=
  (evts.map fun e => if e.ctrlKey then 0 else e.deltaY).sum

def pinchSum (evts : List WheelEvt) : Rat :=
  (evts.map fun e => if e.ctrlKey then e.deltaY else 0).sum

def wheelPart (s : IoSnap) : Rat × Rat × Rat := (s.wheelX, s.wheelY, s.pinch)

-- Concrete scenario used to exercise the relay-delay theorem: power source at
-- the origin, a wire to a switch, the switch to the relay coil; the switch is
-- toggled closed by the io event of step 1.

def delayDoc : Document :=
  [ { cid := "PS", kind := .powerSource, x := 0, y := 0, rot := 0, flip := false },
    { cid := "W1", kind := .wire, x := 0, y := 0, rot := 0, flip := false },
    { cid := "SW", kind := .switch false, x := 1, y := 0, rot := 0, flip := false },
    { cid := "R", kind := .relayCoil 1, x := 2, y := 0, rot := 0, flip := false } ]

def delayEvts : List (List String) := [[], ["SW"], []]

-- ## Serialization round-trip lemmas

theorem natChars_ne_nil (n : Nat) : natChars n ≠ [] := by
  rw [natChars]
  split <;> simp

theorem isDig_digCh : ∀ d, d < 10 → isDig (digCh d) = true := by decide

theorem digVal_digCh : ∀ d, d < 10 → digVal (digCh d) = d := by decide

theorem natChars_digits (n : Nat) : ∀ c ∈ natChars n, isDig c = true := by
  induction n using Nat.strong_induction_on with
  | _ n ih =>
    rw [natChars]
    split
    · rename_i h
      intro c hc
      simp at hc
      subst hc
      exact isDig_digCh n h
    · rename_i h
      intro c hc
      rcases List.mem_append.mp hc with h1 | h2
      · exact ih (n / 10) (Nat.div_lt_self (by omega) (by omega)) c h1
      · simp at h2
        subst h2
        exact isDig_digCh _ (Nat.mod_lt _ (by omega))

theorem digsVal_natChars (n : Nat) : digsVal (natChars n) = n := by
  induction n using Nat.strong_induction_on with
  | _ n ih =>
    rw [natChars]
    split
    · rename_i h
      simp [digsVal, digVal_digCh n h]
    · rename_i h
      have hstep : digsVal (natChars (n / 10) ++ [digCh (n % 10)]) =
          digsVal (natChars (n / 10)) * 10 + digVal (digCh (n % 10)) := by
        simp [digsVal, List.foldl_append]
      rw [hstep, ih (n / 10) (Nat.div_lt_self (by omega) (by omega)),
        digVal_digCh _ (Nat.mod_lt _ (by omega))]
      omega

theorem spanDig_app (ds rest : List Char) (hds : ∀ c ∈ ds, isDig c = true)
    (hr : headNd rest = true) : spanDig (ds ++ rest) = (ds, rest) := by
  induction ds with
  | nil =>
    simp only [List.nil_append]
    cases rest with
    | nil => rfl
    | cons c cs =>
      simp [headNd] at hr
      simp [spanDig, hr]
  | cons d ds ih =>
    have hd : isDig d = true := hds d (by simp)
    have ih2 := ih fun c hc => hds c (by simp [hc])
    simp [spanDig, hd, ih2]

theorem parseNat_enc (n : Nat) (rest : List Char) (hr : headNd rest = true) :
    parseNat (natChars n ++ rest) = some (n, rest) := by
  have hspan := spanDig_app (natChars n) rest (natChars_digits n) hr
  obtain ⟨d, ds, hds⟩ := List.exists_cons_of_ne_nil (natChars_ne_nil n)
  unfold parseNat
  rw [hspan, hds]
  show some (digsVal (d :: ds), rest) = some (n, rest)
  rw [← hds, digsVal_natChars]

theorem isDig_ne_dash {c : Char} (h : isDig c = true) : c ≠ '-' := by
  intro he
  subst he
  exact absurd h (by decide)

theorem headNd_colon (t : List Char) : headNd (':' :: t) = true := rfl

theorem headNd_space (t : List Char) : headNd (' ' :: t) = true := rfl

theorem expectCh_same (c : Char) (rest : List Char) : expectCh c (c :: rest) = some rest := by
  simp [expectCh]

theorem parseInt_enc (x : Int) (rest : List Char) (hr : headNd rest = true) :
    parseInt (intChars x ++ rest) = some (x, rest) := by
  by_cases hx : x < 0
  · have h1 : intChars x = '-' :: natChars x.natAbs := by simp [intChars, hx]
    rw [h1]
    show (parseNat (natChars x.natAbs ++ rest)).map (fun p => (-((p.1 : Nat) : Int), p.2)) =
      some (x, rest)
    rw [parseNat_enc _ _ hr, Option.map_some']
    have hval : -((x.natAbs : Nat) : Int) = x := by omega
    rw [hval]
  · have h1 : intChars x = natChars x.natAbs := by simp [intChars, hx]
    obtain ⟨d, ds, hds⟩ := List.exists_cons_of_ne_nil (natChars_ne_nil x.natAbs)
    have hd : isDig d = true := by
      apply natChars_digits x.natAbs
      rw [hds]
      simp
    have hne : d ≠ '-' := isDig_ne_dash hd
    rw [h1, hds]
    show (if d = '-' then (parseNat (ds ++ rest)).map fun p => (-((p.1 : Nat) : Int), p.2)
        else (parseNat (d :: (ds ++ rest))).map fun p => (((p.1 : Nat) : Int), p.2)) =
      some (x, rest)
    rw [if_neg hne,
      show d :: (ds ++ rest) = (d :: ds) ++ rest from rfl, ← hds, parseNat_enc _ _ hr,
      Option.map_some']
    have hval : ((x.natAbs : Nat) : Int) = x := by omega
    rw [hval]

theorem parseStr_enc (s : String) (rest : List Char) :
    parseStr (strChars s ++ rest) = some (s, rest) := by
  have h1 : strChars s ++ rest = natChars s.length ++ (':' :: (s.data ++ rest)) := by
    simp [strChars]
  rw [h1]
  unfold parseStr
  rw [parseNat_enc _ _ (headNd_colon _), Option.some_bind, expectCh_same, Option.some_bind]
  have he : s.length = s.data.length := rfl
  have hlen : s.length ≤ (s.data ++ rest).length := by
    rw [he, List.length_append]
    omega
  rw [if_pos hlen, he, List.take_left, List.drop_left]

theorem parseBool_enc (b : Bool) (rest : List Char) :
    parseBool (boolCh b :: rest) = some (b, rest) := by
  cases b <;> rfl

theorem parseKind_enc (k : Kind) (rest : List Char) :
    parseKind (kindChars k ++ rest) = some (k, rest) := by
  cases k with
  | wire => rfl
  | relayCoil n =>
    have h1 : kindChars (Kind.relayCoil n) ++ rest = 'c' :: (natChars n ++ (' ' :: rest)) := by
      simp [kindChars]
    rw [h1]
    show (parseNat (natChars n ++ (' ' :: rest))).bind
        (fun p => (expectCh ' ' p.2).map fun r => (Kind.relayCoil p.1, r)) =
      some (.relayCoil n, rest)
    rw [parseNat_enc _ _ (headNd_space _), Option.some_bind, expectCh_same,
      Option.map_some']
  | switch b =>
    show (parseBool (boolCh b :: rest)).map (fun p => (Kind.switch p.1, p.2)) =
      some (.switch b, rest)
    rw [parseBool_enc, Option.map_some']
  | powerSource => rfl

theorem parseRot_enc (r : Fin 4) (rest : List Char) :
    parseRot (rotChars r ++ rest) = some (r, rest) := by
  have h1 : rotChars r ++ rest = natChars r.val ++ (' ' :: rest) := by simp [rotChars]
  rw [h1]
  unfold parseRot
  rw [parseNat_enc _ _ (headNd_space _), Option.some_bind, expectCh_same, Option.some_bind,
    dif_pos r.isLt]

theorem parseInt_sp (x : Int) (t : List Char) :
    parseInt (intChars x ++ (' ' :: t)) = some (x, ' ' :: t) :=
  parseInt_enc _ _ (headNd_space t)

theorem parseComp_enc (c : Component) (rest : List Char) :
    parseComp (compChars c ++ rest) = some (c, rest) := by
  have h1 : compChars c ++ rest =
      strChars c.cid ++
        (kindChars c.kind ++
          (intChars c.x ++
            (' ' :: (intChars c.y ++
              (' ' :: (rotChars c.rot ++ (boolCh c.flip :: ('\n' :: rest)))))))) := by
    simp [compChars]
  rw [h1]
  unfold parseComp
  simp only [parseStr_enc, Option.some_bind, parseKind_enc, parseInt_sp, expectCh_same,
    parseRot_enc, parseBool_enc, Option.map_some']

theorem compChars_ne_nil (c : Component) : compChars c ≠ [] := by
  intro h
  unfold compChars strChars at h
  rw [List.append_assoc] at h
  exact natChars_ne_nil _ (List.append_eq_nil.mp h).1

theorem parseDocFuel_enc (d : Document) :
    ∀ f, d.length ≤ f → parseDocFuel f (docChars d) = some d := by
  induction d with
  | nil =>
    intro f _
    cases f <;> rfl
  | cons c cs ih =>
    intro f hf
    cases f with
    | zero => simp at hf
    | succ f =>
      obtain ⟨h0, t, ht⟩ := List.exists_cons_of_ne_nil (compChars_ne_nil c)
      have hcons : docChars (c :: cs) = h0 :: (t ++ docChars cs) := by
        show compChars c ++ docChars cs = h0 :: (t ++ docChars cs)
        rw [ht]
        rfl
      rw [hcons]
      show (parseComp (h0 :: (t ++ docChars cs))).bind
          (fun p => (parseDocFuel f p.2).map fun d => p.1 :: d) = some (c :: cs)
      rw [show h0 :: (t ++ docChars cs) = compChars c ++ docChars cs by rw [ht]; rfl,
        parseComp_enc, Option.some_bind, ih f (by simp at hf; omega), Option.map_some']

theorem docChars_len (d : Document) : d.length ≤ (docChars d).length := by
  induction d with
  | nil => simp [docChars]
  | cons c cs ih =>
    have hlen : 1 ≤ (compChars c).length := List.length_pos.mpr (compChars_ne_nil c)
    show (c :: cs).length ≤ (compChars c ++ docChars cs).length
    rw [List.length_append, List.length_cons]
    omega

/-- Claim C2: for every Schematic Document (the empty document included),
load (save doc) returns the document itself component-for-component, and
re-saving the loaded document is byte-identical to the original save. -/
theorem save_load_round_trip (d : Document) :
    load (save d) = some d ∧ (load (save d)).map save = some (save d) := by
  have h : load (save d) = some d := by
    show parseDocFuel (docChars d).length (docChars d) = some d
    exact parseDocFuel_enc d _ (docChars_len d)
  exact ⟨h, by rw [h]; rfl⟩

-- ## Simulation determinism and relay delay

theorem simTraceFrom_take (d : Document) :
    ∀ (n : Nat) (st : SimState) (e1 e2 : List (List String)),
      e1.take n = e2.take n →
      (simTraceFrom d st e1).take n = (simTraceFrom d st e2).take n := by
  intro n
  induction n with
  | zero =>
    intro st e1 e2 _
    simp
  | succ n ih =>
    intro st e1 e2 h
    cases e1 with
    | nil =>
      cases e2 with
      | nil => rfl
      | cons b bs => simp [List.take_succ_cons] at h
    | cons a as =>
      cases e2 with
      | nil => simp [List.take_succ_cons] at h
      | cons b bs =>
        simp only [List.take_succ_cons, List.cons.injEq] at h
        obtain ⟨hab, ht⟩ := h
        subst hab
        show (stepSim d st a :: simTraceFrom d (stepSim d st a).state as).take (n + 1) =
          (stepSim d st a :: simTraceFrom d (stepSim d st a).state bs).take (n + 1)
        rw [List.take_succ_cons, List.take_succ_cons, ih _ as bs ht]

/-- Claim C1: the simulation is deterministic — the per-step output sequence is
a pure function of the initial document and the io event sequence, so two runs
whose first n io events agree produce identical first n step outputs; the
model takes no clock or other input, so the state depends only on the discrete
step count and the inputs, never on wall-clock time. -/
theorem sim_deterministic (d : Document) (evts1 evts2 : List (List String)) (n : Nat)
    (h : evts1.take n = evts2.take n) :
    (simTrace d evts1).take n = (simTrace d evts2).take n :=
  simTraceFrom_take d n (initState d) evts1 evts2 h

/-- Witness for sim_deterministic at a concrete document and event prefix. -/
theorem sim_deterministic_witness :
    (([[], ["a"]] : List (List String)).take 1 = ([[], ["b"]] : List (List String)).take 1) ∧
    (simTrace [] [[], ["a"]]).take 1 = (simTrace [] [[], ["b"]]).take 1 :=
  ⟨by decide, sim_deterministic [] [[], ["a"]] [[], ["b"]] 1 (by decide)⟩

theorem lookup_relay_map (l : List Component) (g : Component → Bool) (r : String) :
    (l.filterMap fun c => if c.isRelayC then some (c.cid, g c) else none).lookup r =
      (l.find? fun c => c.isRelayC && c.cid == r).map g := by
  induction l with
  | nil => rfl
  | cons c cs ih =>
    cases hrel : c.isRelayC with
    | false =>
      have hfind : List.find? (fun c => c.isRelayC && c.cid == r) (c :: cs) =
          List.find? (fun c => c.isRelayC && c.cid == r) cs := by
        apply List.find?_cons_of_neg
        simp [hrel]
      simp only [List.filterMap_cons, hrel, if_neg, Bool.false_eq_true, hfind, ih,
        reduceIte]
    | true =>
      by_cases hc : c.cid = r
      · have hb : (c.isRelayC && (c.cid == r)) = true := by simp [hrel, hc]
        have hfind : List.find? (fun c => c.isRelayC && c.cid == r) (c :: cs) = some c :=
          List.find?_cons_of_pos _ hb
        have hlk : (r == c.cid) = true := by simp [hc]
        simp only [List.filterMap_cons, hrel, reduceIte, hfind, List.lookup, hlk,
          Option.map_some']
      · have hb : (c.isRelayC && (c.cid == r)) = false := by simp [hc]
        have hfind : List.find? (fun c => c.isRelayC && c.cid == r) (c :: cs) =
            List.find? (fun c => c.isRelayC && c.cid == r) cs := by
          apply List.find?_cons_of_neg
          simp [hb]
        have hlk : (r == c.cid) = false := by
          simp
          exact fun he => hc he.symm
        simp only [List.filterMap_cons, hrel, reduceIte, hfind, List.lookup, hlk, ih]

theorem armUsed_succ (d : Document) (evts : List (List String)) (j : Nat) (r : String) :
    armUsedAt d evts (j + 1) r = coilEnergizedAt d evts j r := by
  have h1 : (stateAt d evts (j + 1)).armature =
      stepArm d (applyIoEvt (stateAt d evts j) (evts.getD j [])) := rfl
  unfold armUsedAt lookupB
  rw [h1]
  unfold stepArm
  rw [lookup_relay_map]
  unfold coilEnergizedAt
  rfl

theorem armUsed_zero (d : Document) (evts : List (List String)) (r : String) :
    armUsedAt d evts 0 r = false := by
  unfold armUsedAt lookupB
  have h1 : (stateAt d evts 0).armature =
      d.filterMap fun c => if c.isRelayC then some (c.cid, false) else none := rfl
  rw [h1, lookup_relay_map d (fun _ => false) r]
  cases d.find? fun c => c.isRelayC && c.cid == r <;> rfl

/-- Claim C3: the relay armature bridging used during any step equals the
coil's energized state of the previous step (and the armature starts open), so
when the coil's energization changes going into step j+1, the contacts still
show the old value during step j+1 itself and take the new value exactly one
step later, at step j+2. -/
theorem relay_one_step_delay (d : Document) (evts : List (List String)) (r : String) (j : Nat)
    (_hch : coilEnergizedAt d evts j r ≠ coilEnergizedAt d evts (j + 1) r) :
    armUsedAt d evts (j + 1) r = coilEnergizedAt d evts j r ∧
    armUsedAt d evts (j + 2) r = coilEnergizedAt d evts (j + 1) r ∧
    armUsedAt d evts 0 r = false :=
  ⟨armUsed_succ d evts j r, armUsed_succ d evts (j + 1) r, armUsed_zero d evts r⟩

/-- Witness for relay_one_step_delay: in the source-wire-switch-coil scenario
the switch closes at step 1, the coil becomes energized at step 1, the
armature is still open during step 1 and closes during step 2. -/
theorem relay_one_step_delay_witness :
    (coilEnergizedAt delayDoc delayEvts 0 "R" ≠ coilEnergizedAt delayDoc delayEvts 1 "R") ∧
    (armUsedAt delayDoc delayEvts 1 "R" = coilEnergizedAt delayDoc delayEvts 0 "R" ∧
     armUsedAt delayDoc delayEvts 2 "R" = coilEnergizedAt delayDoc delayEvts 1 "R" ∧
     armUsedAt delayDoc delayEvts 0 "R" = false) :=
  ⟨by decide, relay_one_step_delay delayDoc delayEvts "R" 0 (by decide)⟩

-- ## Host glue theorems

/-- Claim C4: each of the four host control-surface operations fails with the
"Cad is not initialized" error and performs no core call while the engine is
not yet constructed, and forwards to exactly the corresponding single core
call once it is. -/
theorem ctl_requires_initialized :
    (∀ op : CtlOp, handleCtl none op = ([], Except.error "Cad is not initialized")) ∧
    (∀ (op : CtlOp) (c : Cad), handleCtl (some c) op = ([coreCallOf op], Except.ok ())) :=
  ⟨fun _ => rfl, fun _ _ => rfl⟩

/-- Counterexample to claim C5 as stated: in the earlier js revision's
handler the snapshot has a single keydown field, so pressing "a" then "b"
within one frame interval leaves the same state as pressing only "b" — the
"a" press is overwritten and lost, not queued and delivered exactly once. -/
theorem legacy_keydown_overwrites :
    legacyOnKeyDown (legacyOnKeyDown (some ZsSchIo.start) ⟨"a"⟩) ⟨"b"⟩ =
        legacyOnKeyDown (some ZsSchIo.start) ⟨"b"⟩ ∧
    legacyOnKeyDown (legacyOnKeyDown (some ZsSchIo.start) ⟨"a"⟩) ⟨"b"⟩ =
        some { ZsSchIo.start with keydown := some "b" } :=
  ⟨rfl, rfl⟩

/-- Claim C5 (amended): in the current handlers every key press between two
frames is appended to the snapshot's pending key-press queue in order, none
overwritten or lost, and the queue is cleared by the core's drain; in the
earlier js revision the single keydown field is overwritten by each press, so
only the last press of a frame interval is delivered. -/
theorem keydown_queue_appends (s : IoSnap) (evts : List KeyEvt) :
    evts.foldl onKeyDown (some s) =
        some { s with keydowns := s.keydowns ++ evts.map KeyEvt.key } ∧
    (drainSnap { s with keydowns := s.keydowns ++ evts.map KeyEvt.key }).keydowns = [] ∧
    ∀ (t : ZsSchIo) (e1 e2 : KeyEvt),
      legacyOnKeyDown (legacyOnKeyDown (some t) e1) e2 = legacyOnKeyDown (some t) e2 := by
  refine ⟨?_, rfl, fun t e1 e2 => rfl⟩
  induction evts generalizing s with
  | nil => simp
  | cons e es ih =>
    show es.foldl onKeyDown (onKeyDown (some s) e) = _
    rw [show onKeyDown (some s) e = some { s with keydowns := s.keydowns ++ [e.key] } from rfl,
      ih]
    simp

/-- Claim C6: wheel events accumulate into the snapshot — a burst of wheel
events adds the control-modified vertical deltas to pinch and the unmodified
deltas to wheelX / wheelY, leaving every other field unchanged; no other
handler touches the three accumulators, and only the core's drain resets them
to zero. -/
theorem wheel_accumulates (s : IoSnap) (evts : List WheelEvt) :
    evts.foldl onWheel (some s) =
        some { s with wheelX := s.wheelX + wheelXSum evts,
                      wheelY := s.wheelY + wheelYSum evts,
                      pinch := s.pinch + pinchSum evts } ∧
    (∀ t : IoSnap, (drainSnap t).wheelX = 0 ∧ (drainSnap t).wheelY = 0 ∧
      (drainSnap t).pinch = 0) ∧
    (∀ (t : IoSnap) (rect : BoundingRect) (m : MouseEvt) (k : KeyEvt),
      (onMouseMove (some t) rect m).map wheelPart = some (wheelPart t) ∧
      (onMouseDown (some t) m).map wheelPart = some (wheelPart t) ∧
      (onMouseUp (some t) m).map wheelPart = some (wheelPart t) ∧
      (onClick (some t) m).map wheelPart = some (wheelPart t) ∧
      (onDoubleClick (some t) m).map wheelPart = some (wheelPart t) ∧
      (onKeyDown (some t) k).map wheelPart = some (wheelPart t)) := by
  refine ⟨?_, fun t => ⟨rfl, rfl, rfl⟩, fun t rect m k => ⟨rfl, rfl, rfl, rfl, rfl, rfl⟩⟩
  induction evts generalizing s with
  | nil => simp [wheelXSum, wheelYSum, pinchSum]
  | cons e es ih =>
    show es.foldl onWheel (onWheel (some s) e) = _
    by_cases hc : e.ctrlKey
    · rw [show onWheel (some s) e = some { s with pinch := s.pinch + e.deltaY } by
        simp [onWheel, hc], ih]
      simp [wheelXSum, wheelYSum, pinchSum, hc, add_assoc]
    · rw [show onWheel (some s) e =
        some { s with wheelX := s.wheelX + e.deltaX, wheelY := s.wheelY + e.deltaY } by
        simp [onWheel, hc], ih]
      simp [wheelXSum, wheelYSum, pinchSum, hc, add_assoc]

/-- Claim C7: a mounted frame tick performs exactly the call sequence
set-screen-size, new_frame, draw, request-next-frame — new_frame and draw each
exactly once, size first — and on no tick does draw precede new_frame. -/
theorem frame_order :
    loopTick false = [.setScreenSize, .newFrame, .drawCall, .requestNext] ∧
    (loopTick false).count FrameCall.newFrame = 1 ∧
    (loopTick false).count FrameCall.drawCall = 1 ∧
    (∀ b : Bool, noDrawBeforeNewFrame (loopTick b) = true) := by decide

/-- Claim C8: a mouse-move overwrites mouseX / mouseY with the cursor position
relative to the canvas bounding-rectangle origin, independent of the previous
snapshot state (never accumulated), and leaves the wheel and pinch
accumulators, the queues, and every other field unchanged. -/
theorem mousemove_overwrites_absolute (s : IoSnap) (rect : BoundingRect) (e : MouseEvt) :
    onMouseMove (some s) rect e =
        some { s with mouseX := e.clientX - rect.left, mouseY := e.clientY - rect.top } ∧
    (∀ t : IoSnap, (onMouseMove (some t) rect e).map (fun u => (u.mouseX, u.mouseY)) =
        some (e.clientX - rect.left, e.clientY - rect.top)) :=
  ⟨rfl, fun _ => rfl⟩

/-- Claim C9: every host input handler silently ignores events that arrive
before the snapshot exists — the state stays none, nothing is queued and no
error value is produced — and after initialization installs a fresh snapshot,
the post-initialization run is exactly the run over the later events, so
early events are never replayed. -/
theorem early_events_discarded :
    (∀ e : HostEvt, handleEvt none e = none) ∧
    (∀ evts : List HostEvt, runHost none evts = none) ∧
    (∀ early post : List HostEvt, bootRun early post = runHost (some IoSnap.start) post) := by
  have h1 : ∀ e : HostEvt, handleEvt none e = none := by
    intro e
    cases e <;> rfl
  refine ⟨h1, ?_, fun early post => rfl⟩
  intro evts
  induction evts with
  | nil => rfl
  | cons e es ih =>
    show es.foldl handleEvt (handleEvt none e) = none
    rw [h1 e]
    exact ih

/-- Claim C10: the effect cleanup removes every mount-registered canvas
listener except the double-click one, which survives unmount; an unmounted
tick only frees the core — no new_frame, draw, or next-frame request — while
the surviving double-click handler still appends to the snapshot's
double-click queue. -/
theorem unmount_keeps_dblclick_listener :
    listenersAfterUnmount = [ListenerKind.dblclickL] ∧
    (ListenerKind.dblclickL ∈ mountListeners ∧ ListenerKind.dblclickL ∉ unmountRemovals) ∧
    loopTick true = [FrameCall.freeCad] ∧
    FrameCall.newFrame ∉ loopTick true ∧
    FrameCall.drawCall ∉ loopTick true ∧
    FrameCall.requestNext ∉ loopTick true ∧
    (∀ (s : IoSnap) (e : MouseEvt),
      onDoubleClick (some s) e = some { s with doubleClicks := s.doubleClicks ++ [e.button] }) :=
  ⟨by decide, by decide, rfl, by decide, by decide, by decide, fun _ _ => rfl⟩

end Zuse
